import Mathlib

/-!
Shallow embedding of the `burster` rate-limiter crate.

Modelling conventions, used uniformly below:

* Rust `u64` values are modelled as `Nat`.  Saturating operations are spelled
  out (`satAddU64`); the `as u64` truncating cast is `u64cast`.  Where the
  source performs an *unchecked* operation whose overflow/underflow would
  panic in debug builds (the sliding-window-log `capacity - sum` subtraction,
  the `buffer[0] += tokens` addition, the sliding-window-counter guard
  addition, out-of-bounds indexing, division by a zero window width), the
  model returns `none`, so `none` means "the Rust code panics here".
* `core::time::Duration` values are modelled as `Nat` nanoseconds;
  `Duration::as_millis` is `asMillis`, `Duration::saturating_sub` is `Nat`
  subtraction (which already saturates at zero).
* The two limiters that go through `f64` (`TokenBucket`'s
  `delta.as_secs_f64() * rate` truncation, `SlidingWindowCounter`'s
  `trunc`/`fract` of `delta_ms / width`) take the result of that IEEE-754
  computation as an explicit oracle parameter (`rateMul`, `idxOf`, `effOf`),
  because binary floating point is not part of this embedding.  Everything
  the oracles feed into — branch structure, state updates, grant decisions —
  is modelled exactly; theorems quantify over the oracles and concrete
  instances use inputs at which the `f64` computation is exact.
-/

/-- Result of `Limiter::try_consume`: `Ok(())` or `Err(CantConsume)`
(`LimiterResult = Result<(), CantConsume>` in `lib.rs`). -/
inductive LimiterResult where
  | ok : LimiterResult
  | cantConsume : LimiterResult
deriving DecidableEq, Repr

/-- Largest `u64` value. -/
def U64_MAX : Nat := 18446744073709551615

/-- The `as u64` truncating cast on an unbounded natural. -/
def u64cast (n : Nat) : Nat := n % 18446744073709551616

/-- Saturating `u64` addition (`u64::saturating_add`). -/
def satAddU64 (a b : Nat) : Nat := min (a + b) U64_MAX

/-- Model of `Duration::as_millis` on a duration held as nanoseconds. -/
def asMillis (ns : Nat) : Nat := ns / 1000000

/-! ## Token bucket (`token_bucket_impl.rs`) -/

/-- State of `TokenBucket` (`token_bucket_impl.rs`): the `capacity` from the
config, the current balance `tokens` and the timestamp `last_update_t`.
The `f64` field `rate_per_s` lives inside the `rateMul` oracle instead. -/
structure TokenBucket where
  capacity : Nat
  tokens : Nat
  last_update_t : Nat
deriving DecidableEq, Repr

/-- Model of `TokenBucket::new_with_time_provider`: a full bucket stamped
with the construction-time clock reading. -/
def TokenBucket.new (capacity now : Nat) : TokenBucket :=
  ⟨capacity, capacity, now⟩

/-- Refill phase of `TokenBucket::try_consume` (lines 68-78): compute
`tokens_to_add` from the saturating elapsed time via the `f64` oracle
`rateMul` (modelling `(delta.as_secs_f64() * rate_per_s) as u64`); when it is
nonzero, advance `last_update_t` and add with saturation, capped at
`capacity`. -/
def TokenBucket.refill (rateMul : Nat → Nat) (s : TokenBucket) (now : Nat) : TokenBucket :=
  let delta := now - s.last_update_t
  let toAdd := rateMul delta
  if toAdd ≠ 0 then
    ⟨s.capacity, min (satAddU64 s.tokens toAdd) s.capacity, now⟩
  else s

/-- Model of `TokenBucket::try_consume` (lines 66-87): refill, then grant and
subtract when the balance suffices, else refuse leaving the balance as the
refill left it. -/
def TokenBucket.tryConsume (rateMul : Nat → Nat) (s : TokenBucket) (now tokens : Nat) :
    LimiterResult × TokenBucket :=
  let t := s.refill rateMul now
  if tokens ≤ t.tokens then
    (.ok, ⟨t.capacity, t.tokens - tokens, t.last_update_t⟩)
  else
    (.cantConsume, t)

/-- States reachable from some construction by any sequence of
`try_consume` calls (any clock readings, any `f64` oracle values: a superset
of the monotone-clock executions the spec talks about). -/
inductive TokenBucket.Reachable : TokenBucket → Prop where
  | init (capacity now : Nat) : TokenBucket.Reachable (TokenBucket.new capacity now)
  | step {s : TokenBucket} (rateMul : Nat → Nat) (now tokens : Nat) :
      TokenBucket.Reachable s →
      TokenBucket.Reachable (TokenBucket.tryConsume rateMul s now tokens).2

/-! ## Fixed window (`fixed_window_impl.rs`) -/

/-- State of `FixedWindow` (`fixed_window_impl.rs`): config `capacity` and
`width_ms`, balance `tokens`, current `window_index` and the construction
timestamp `start_time` (nanoseconds). -/
structure FixedWindow where
  capacity : Nat
  width_ms : Nat
  tokens : Nat
  window_index : Nat
  start_time : Nat
deriving DecidableEq, Repr

/-- Model of `FixedWindow::new_with_time_provider`. -/
def FixedWindow.new (capacity width_ms now : Nat) : FixedWindow :=
  ⟨capacity, width_ms, capacity, 0, now⟩

/-- Replenish phase of `FixedWindow::try_consume` (lines 66-74): compute the
fixed-window index of `now` and, on a window change, reset the balance to
`capacity`. -/
def FixedWindow.refresh (s : FixedWindow) (now : Nat) : FixedWindow :=
  let index := u64cast (asMillis (now - s.start_time)) / s.width_ms
  if index ≠ s.window_index then
    ⟨s.capacity, s.width_ms, s.capacity, index, s.start_time⟩
  else s

/-- Model of `FixedWindow::try_consume` (lines 64-78).  `none` models the
division-by-zero panic of `delta_ms / width_ms` when the limiter was built
with `width_ms = 0`; otherwise replenish, then `checked_sub` the request. -/
def FixedWindow.tryConsume (s : FixedWindow) (now tokens : Nat) :
    Option (LimiterResult × FixedWindow) :=
  if s.width_ms = 0 then none
  else
    let t := s.refresh now
    if tokens ≤ t.tokens then
      some (.ok, ⟨t.capacity, t.width_ms, t.tokens - tokens, t.window_index, t.start_time⟩)
    else
      some (.cantConsume, t)

/-- States reachable from some construction by non-panicking `try_consume`
calls with arbitrary clock readings. -/
inductive FixedWindow.Reachable : FixedWindow → Prop where
  | init (capacity width_ms now : Nat) :
      FixedWindow.Reachable (FixedWindow.new capacity width_ms now)
  | step {s t : FixedWindow} {r : LimiterResult} (now tokens : Nat) :
      FixedWindow.Reachable s →
      s.tryConsume now tokens = some (r, t) →
      FixedWindow.Reachable t

/-! ## Sliding window log (`sliding_window_impl.rs`, lines 49-122) -/

/-- State of `SlidingWindowLog`: config `capacity`, the per-millisecond
`window_buffer` (its length is the const generic window width `W`) and
`last_update_time` (nanoseconds). -/
structure SlidingWindowLog where
  capacity : Nat
  window_buffer : List Nat
  last_update_time : Nat
deriving DecidableEq, Repr

/-- The window width `W`: the fixed length of the buffer. -/
def SlidingWindowLog.W (s : SlidingWindowLog) : Nat := s.window_buffer.length

/-- Model of `SlidingWindowLog::new_with_time_provider`: an all-zero buffer
of length `W`, stamped with the construction-time clock reading.  No value of
`W` is rejected. -/
def SlidingWindowLog.new (capacity W now : Nat) : SlidingWindowLog :=
  ⟨capacity, List.replicate W 0, now⟩

/-- The elapsed time `delta_t` of `try_consume` (line 92):
`now.saturating_sub(last_update_time).as_millis() as u64`. -/
def SlidingWindowLog.deltaT (s : SlidingWindowLog) (now : Nat) : Nat :=
  u64cast (asMillis (now - s.last_update_time))

/-- Aging phase of `SlidingWindowLog::try_consume` (lines 102-110): when time
moved on (`delta_t != 0`), shift slot contents right by `delta_t` positions
(`copy_within`) and zero the first `delta_t` slots, recording `now`. -/
def SlidingWindowLog.age (s : SlidingWindowLog) (now : Nat) : SlidingWindowLog :=
  let delta := s.deltaT now
  if delta ≠ 0 then
    ⟨s.capacity, List.replicate delta 0 ++ s.window_buffer.take (s.W - delta), now⟩
  else s

/-- Model of `SlidingWindowLog::try_consume` (lines 90-121).  When
`delta_t ≥ W` the whole buffer is reset and `window_buffer[0] = tokens` is
granted unconditionally (`none` when `W = 0`: that write is out of bounds).
Otherwise age the buffer, then compute `capacity - sum(slots)` — an
*unchecked* `u64` subtraction, `none` when the sum exceeds `capacity` — and
grant by adding to slot 0 (again an unchecked addition) or refuse. -/
def SlidingWindowLog.tryConsume (s : SlidingWindowLog) (now tokens : Nat) :
    Option (LimiterResult × SlidingWindowLog) :=
  let delta := s.deltaT now
  if s.W ≤ delta then
    match s.window_buffer with
    | [] => none
    | _ :: _ => some (.ok, ⟨s.capacity, tokens :: List.replicate (s.W - 1) 0, now⟩)
  else
    let t := s.age now
    match t.window_buffer with
    | [] => none
    | h0 :: rest =>
      let used := h0 + rest.sum
      if s.capacity < used then none
      else if s.capacity - used < tokens then some (.cantConsume, t)
      else if U64_MAX < h0 + tokens then none
      else some (.ok, ⟨t.capacity, (h0 + tokens) :: rest, t.last_update_time⟩)

/-- States reachable from some construction by non-panicking `try_consume`
calls whose every request is at most `capacity`. -/
inductive SlidingWindowLog.ReachableB : SlidingWindowLog → Prop where
  | init (capacity W now : Nat) :
      SlidingWindowLog.ReachableB (SlidingWindowLog.new capacity W now)
  | step {s t : SlidingWindowLog} {r : LimiterResult} (now tokens : Nat) :
      SlidingWindowLog.ReachableB s →
      tokens ≤ s.capacity →
      s.tryConsume now tokens = some (r, t) →
      SlidingWindowLog.ReachableB t

/-! ## Sliding window counter (`sliding_window_impl.rs`, lines 159-234) -/

/-- State of `SlidingWindowCounter`: config `capacity`, the two bucket
counters, the current `window_index`, the `window_width_ms` and the
construction timestamp `start_time` (nanoseconds). -/
structure SlidingWindowCounter where
  capacity : Nat
  tokens_prev : Nat
  tokens_this : Nat
  window_index : Nat
  window_width_ms : Nat
  start_time : Nat
deriving DecidableEq, Repr

/-- Model of `SlidingWindowCounter::new_with_time_provider`. -/
def SlidingWindowCounter.new (capacity window_width_ms now : Nat) : SlidingWindowCounter :=
  ⟨capacity, 0, 0, 0, window_width_ms, now⟩

/-- The elapsed milliseconds of `try_consume` (line 207):
`now.saturating_sub(start_time).as_millis()` (fed to `f64` afterwards). -/
def SlidingWindowCounter.deltaMs (s : SlidingWindowCounter) (now : Nat) : Nat :=
  asMillis (now - s.start_time)

/-- Window-roll phase of `SlidingWindowCounter::try_consume` (lines 213-223),
branching on the computed fixed-window `index`: on `index == window_index + 1`
move `tokens_this` to `tokens_prev`; on `index == window_index + 2` zero both
counters; otherwise (including every `index ≥ window_index + 3`) change
nothing. -/
def SlidingWindowCounter.roll (s : SlidingWindowCounter) (index : Nat) : SlidingWindowCounter :=
  if index = s.window_index + 1 then
    ⟨s.capacity, s.tokens_this, 0, index, s.window_width_ms, s.start_time⟩
  else if index = s.window_index + 2 then
    ⟨s.capacity, 0, 0, index, s.window_width_ms, s.start_time⟩
  else s

/-- Model of `SlidingWindowCounter::try_consume` (lines 204-233).  The two
`f64` computations are oracles: `idxOf delta_ms` models
`(delta_ms as f64 / width as f64).trunc() as u64` and `effOf delta_ms prev`
models `(prev as f64 * (1.0 - fract)) as u64`.  Roll the window, then test
the *unchecked* guard addition `effective_prev + tokens_this + tokens`
(`none` when it would overflow `u64`, a debug-build panic) against
`capacity`. -/
def SlidingWindowCounter.tryConsume (idxOf : Nat → Nat) (effOf : Nat → Nat → Nat)
    (s : SlidingWindowCounter) (now tokens : Nat) :
    Option (LimiterResult × SlidingWindowCounter) :=
  let t := s.roll (idxOf (s.deltaMs now))
  let eff := effOf (s.deltaMs now) t.tokens_prev
  if U64_MAX < eff + t.tokens_this + tokens then none
  else if s.capacity < eff + t.tokens_this + tokens then some (.cantConsume, t)
  else some (.ok, ⟨t.capacity, t.tokens_prev, t.tokens_this + tokens, t.window_index,
    t.window_width_ms, t.start_time⟩)

/-- States reachable from some construction by non-panicking `try_consume`
calls with arbitrary clock readings and arbitrary `f64` oracle values. -/
inductive SlidingWindowCounter.Reachable : SlidingWindowCounter → Prop where
  | init (capacity window_width_ms now : Nat) :
      SlidingWindowCounter.Reachable (SlidingWindowCounter.new capacity window_width_ms now)
  | step {s t : SlidingWindowCounter} {r : LimiterResult}
      (idxOf : Nat → Nat) (effOf : Nat → Nat → Nat) (now tokens : Nat) :
      SlidingWindowCounter.Reachable s →
      SlidingWindowCounter.tryConsume idxOf effOf s now tokens = some (r, t) →
      SlidingWindowCounter.Reachable t

/-! ## Helper lemmas -/

/-- Refilling never changes the configured capacity. -/
theorem tokenBucket_refill_capacity (rateMul : Nat → Nat) (s : TokenBucket) (now : Nat) :
    (s.refill rateMul now).capacity = s.capacity := by
  unfold TokenBucket.refill
  dsimp only
  split <;> rfl

/-- Refilling keeps the balance at or below capacity. -/
theorem tokenBucket_refill_tokens_le (rateMul : Nat → Nat) (s : TokenBucket) (now : Nat)
    (h : s.tokens ≤ s.capacity) :
    (s.refill rateMul now).tokens ≤ s.capacity := by
  unfold TokenBucket.refill
  dsimp only
  split
  · exact min_le_right _ _
  · exact h

/-- One `try_consume` step keeps the token-bucket balance at or below
capacity, and keeps the capacity itself. -/
theorem tokenBucket_step_le (rateMul : Nat → Nat) (s : TokenBucket) (now tokens : Nat)
    (h : s.tokens ≤ s.capacity) :
    (TokenBucket.tryConsume rateMul s now tokens).2.tokens ≤ s.capacity ∧
      (TokenBucket.tryConsume rateMul s now tokens).2.capacity = s.capacity := by
  have h1 := tokenBucket_refill_tokens_le rateMul s now h
  have h2 := tokenBucket_refill_capacity rateMul s now
  unfold TokenBucket.tryConsume
  dsimp only
  split
  · exact ⟨le_trans (Nat.sub_le _ _) h1, h2⟩
  · exact ⟨h1, h2⟩

/-- Invariant: every reachable token-bucket state has `tokens ≤ capacity`. -/
theorem tokenBucket_inv {s : TokenBucket} (h : TokenBucket.Reachable s) :
    s.tokens ≤ s.capacity := by
  induction h with
  | init capacity now => exact le_refl _
  | step rateMul now tokens h ih =>
    rename_i s
    have := tokenBucket_step_le rateMul s now tokens ih
    omega

/-- Replenishing never changes the fixed-window capacity or width. -/
theorem fixedWindow_refresh_fields (s : FixedWindow) (now : Nat) :
    (s.refresh now).capacity = s.capacity ∧ (s.refresh now).width_ms = s.width_ms := by
  unfold FixedWindow.refresh
  dsimp only
  split <;> exact ⟨rfl, rfl⟩

/-- Replenishing keeps the balance at or below capacity. -/
theorem fixedWindow_refresh_tokens_le (s : FixedWindow) (now : Nat)
    (h : s.tokens ≤ s.capacity) :
    (s.refresh now).tokens ≤ s.capacity := by
  unfold FixedWindow.refresh
  dsimp only
  split
  · exact le_refl _
  · exact h

/-- One non-panicking `try_consume` step keeps the fixed-window balance at or
below capacity, and keeps the configuration. -/
theorem fixedWindow_step_le {s t : FixedWindow} {r : LimiterResult} (now tokens : Nat)
    (h : s.tokens ≤ s.capacity) (he : s.tryConsume now tokens = some (r, t)) :
    t.tokens ≤ t.capacity ∧ t.capacity = s.capacity ∧ t.width_ms = s.width_ms := by
  have h1 := fixedWindow_refresh_tokens_le s now h
  have h2 := fixedWindow_refresh_fields s now
  unfold FixedWindow.tryConsume at he
  split at he
  · exact absurd he (by simp)
  · dsimp only at he
    split at he <;>
      simp only [Option.some.injEq, Prod.mk.injEq] at he <;>
      obtain ⟨he1, he2⟩ := he <;> subst he2
    · refine ⟨?_, ?_, ?_⟩ <;> dsimp only <;> omega
    · exact ⟨h1.trans_eq h2.1.symm, h2.1, h2.2⟩

/-- Invariant: every reachable fixed-window state has `tokens ≤ capacity`. -/
theorem fixedWindow_inv {s : FixedWindow} (h : FixedWindow.Reachable s) :
    s.tokens ≤ s.capacity := by
  induction h with
  | init capacity width_ms now => exact le_refl _
  | step now tokens h he ih =>
    rename_i s t r
    have := fixedWindow_step_le now tokens ih he
    omega

/-- Aging never changes the configured capacity. -/
theorem slidingWindowLog_age_capacity (s : SlidingWindowLog) (now : Nat) :
    (s.age now).capacity = s.capacity := by
  unfold SlidingWindowLog.age
  dsimp only
  split <;> rfl

/-- Aging only shifts and discards slot contents, so the slot sum never
grows. -/
theorem slidingWindowLog_age_sum_le (s : SlidingWindowLog) (now : Nat) :
    (s.age now).window_buffer.sum ≤ s.window_buffer.sum := by
  unfold SlidingWindowLog.age
  dsimp only
  split
  · dsimp only
    rw [List.sum_append]
    have h1 : (List.replicate (s.deltaT now) (0 : Nat)).sum = 0 := by
      simp [List.sum_replicate]
    rw [h1, Nat.zero_add]
    calc (s.window_buffer.take (s.W - s.deltaT now)).sum
        ≤ (s.window_buffer.take (s.W - s.deltaT now)).sum
            + (s.window_buffer.drop (s.W - s.deltaT now)).sum := Nat.le_add_right _ _
      _ = s.window_buffer.sum := by rw [← List.sum_append, List.take_append_drop]
  · exact le_refl _

/-- Aging preserves the buffer length when less than a full window has
elapsed. -/
theorem slidingWindowLog_age_length (s : SlidingWindowLog) (now : Nat)
    (h : s.deltaT now < s.W) :
    (s.age now).window_buffer.length = s.window_buffer.length := by
  unfold SlidingWindowLog.age
  dsimp only
  split
  · dsimp only
    rw [List.length_append, List.length_replicate, List.length_take]
    have hW : s.W = s.window_buffer.length := rfl
    omega
  · rfl

/-- One non-panicking `try_consume` step whose request is at most `capacity`
keeps the slot sum at or below capacity, and keeps the capacity itself. -/
theorem slidingWindowLog_step_le {s t : SlidingWindowLog} {r : LimiterResult} (now tokens : Nat)
    (htok : tokens ≤ s.capacity)
    (he : s.tryConsume now tokens = some (r, t)) :
    t.window_buffer.sum ≤ t.capacity ∧ t.capacity = s.capacity := by
  have hage := slidingWindowLog_age_sum_le s now
  have hagec := slidingWindowLog_age_capacity s now
  unfold SlidingWindowLog.tryConsume at he
  dsimp only at he
  split at he
  · split at he
    · exact absurd he (by simp)
    · simp only [Option.some.injEq, Prod.mk.injEq] at he
      obtain ⟨he1, he2⟩ := he
      subst he2
      constructor
      · dsimp only
        rw [List.sum_cons]
        have : (List.replicate (s.W - 1) (0 : Nat)).sum = 0 := by
          simp [List.sum_replicate]
        omega
      · rfl
  · split at he
    · exact absurd he (by simp)
    · rename_i t0 h0 rest hbuf
      have hsum : (s.age now).window_buffer.sum = h0 + rest.sum := by
        rw [hbuf, List.sum_cons]
      split at he
      · exact absurd he (by simp)
      · split at he
        · simp only [Option.some.injEq, Prod.mk.injEq] at he
          obtain ⟨he1, he2⟩ := he
          subst he2
          exact ⟨by omega, hagec⟩
        · split at he
          · exact absurd he (by simp)
          · simp only [Option.some.injEq, Prod.mk.injEq] at he
            obtain ⟨he1, he2⟩ := he
            subst he2
            constructor
            · dsimp only
              rw [List.sum_cons]
              omega
            · exact hagec

/-- Invariant: every state reachable by requests of at most `capacity` keeps
the slot sum at or below `capacity`. -/
theorem slidingWindowLog_inv {s : SlidingWindowLog} (h : SlidingWindowLog.ReachableB s) :
    s.window_buffer.sum ≤ s.capacity := by
  induction h with
  | init capacity W now =>
    simp [SlidingWindowLog.new, List.sum_replicate]
  | step now tokens h htok he ih =>
    rename_i s t r
    have := slidingWindowLog_step_le now tokens htok he
    omega

/-- Rolling the window keeps both counters at or below capacity and keeps
the configuration. -/
theorem slidingWindowCounter_roll_bounds (s : SlidingWindowCounter) (index : Nat)
    (hp : s.tokens_prev ≤ s.capacity) (ht : s.tokens_this ≤ s.capacity) :
    (s.roll index).tokens_prev ≤ s.capacity ∧ (s.roll index).tokens_this ≤ s.capacity ∧
      (s.roll index).capacity = s.capacity := by
  unfold SlidingWindowCounter.roll
  split
  · exact ⟨ht, Nat.zero_le _, rfl⟩
  · split
    · exact ⟨Nat.zero_le _, Nat.zero_le _, rfl⟩
    · exact ⟨hp, ht, rfl⟩

/-- One non-panicking `try_consume` step keeps both counters at or below
capacity, and keeps the capacity itself. -/
theorem slidingWindowCounter_step_le {s t : SlidingWindowCounter} {r : LimiterResult}
    (idxOf : Nat → Nat) (effOf : Nat → Nat → Nat) (now tokens : Nat)
    (hp : s.tokens_prev ≤ s.capacity) (ht : s.tokens_this ≤ s.capacity)
    (he : SlidingWindowCounter.tryConsume idxOf effOf s now tokens = some (r, t)) :
    t.tokens_prev ≤ t.capacity ∧ t.tokens_this ≤ t.capacity ∧ t.capacity = s.capacity := by
  obtain ⟨hrp, hrt, hrc⟩ :=
    slidingWindowCounter_roll_bounds s (idxOf (s.deltaMs now)) hp ht
  unfold SlidingWindowCounter.tryConsume at he
  dsimp only at he
  split at he
  · exact absurd he (by simp)
  · split at he
    · simp only [Option.some.injEq, Prod.mk.injEq] at he
      obtain ⟨he1, he2⟩ := he
      subst he2
      exact ⟨by omega, by omega, hrc⟩
    · rename_i hover hcap
      simp only [Option.some.injEq, Prod.mk.injEq] at he
      obtain ⟨he1, he2⟩ := he
      subst he2
      refine ⟨by dsimp only; omega, ?_, by dsimp only; omega⟩
      dsimp only
      omega

/-- Invariant: every reachable sliding-window-counter state keeps both
counters at or below `capacity`. -/
theorem slidingWindowCounter_inv {s : SlidingWindowCounter}
    (h : SlidingWindowCounter.Reachable s) :
    s.tokens_prev ≤ s.capacity ∧ s.tokens_this ≤ s.capacity := by
  induction h with
  | init capacity window_width_ms now => exact ⟨Nat.zero_le _, Nat.zero_le _⟩
  | step idxOf effOf now tokens h he ih =>
    rename_i s t r
    have := slidingWindowCounter_step_le idxOf effOf now tokens ih.1 ih.2 he
    omega

/-- States reachable from some construction by non-panicking `try_consume`
calls with no restriction on the requested token counts. -/
inductive SlidingWindowLog.Reachable : SlidingWindowLog → Prop where
  | init (capacity W now : Nat) :
      SlidingWindowLog.Reachable (SlidingWindowLog.new capacity W now)
  | step {s t : SlidingWindowLog} {r : LimiterResult} (now tokens : Nat) :
      SlidingWindowLog.Reachable s →
      s.tryConsume now tokens = some (r, t) →
      SlidingWindowLog.Reachable t

/-- Driver for a `FixedWindow` call sequence: each list entry is a clock
reading (nanoseconds) paired with the requested token count, exactly one
clock read per `try_consume` call; a panic (`none`) aborts the run. -/
def FixedWindow.run (s : FixedWindow) : List (Nat × Nat) → List LimiterResult
  | [] => []
  | (now, n) :: rest =>
    match s.tryConsume now n with
    | none => []
    | some (r, t) => r :: t.run rest

/-- When at least a full window elapsed (and the buffer is nonempty), the
reset branch of `SlidingWindowLog::try_consume` fires: all slots are zeroed,
slot 0 receives the request, the timestamp advances, and the call is granted
with no capacity check. -/
theorem slidingWindowLog_reset_eq (s : SlidingWindowLog) (now tokens : Nat)
    (hW : 1 ≤ s.W) (hd : s.W ≤ s.deltaT now) :
    s.tryConsume now tokens =
      some (.ok, ⟨s.capacity, tokens :: List.replicate (s.W - 1) 0, now⟩) := by
  unfold SlidingWindowLog.tryConsume
  dsimp only
  rw [if_pos hd]
  rcases hbuf : s.window_buffer with _ | ⟨x, xs⟩
  · exact absurd hW (by simp [SlidingWindowLog.W, hbuf])
  · rfl

/-! ## Claims -/

/-- C1: the claim says `SlidingWindowCounter::try_consume` zeroes both
counters and sets `window_index = index` whenever the computed fixed-window
index is at least `window_index + 2`.  The code tests
`index == window_index + 2` *exactly* (contradicting its own comment about
having "skipped at least one full window"): with capacity 1000 and window
width 10 ms, a first call at 30 ms — where the `f64` division
`30.0 / 10.0 = 3.0` is exact, so `index = 3 = window_index + 3` and
`overlap = 0` — leaves `window_index` at 0 and merely adds to `tokens_this`
instead of zeroing the counters and setting `window_index = 3`. -/
theorem c1_skipped_windows_not_zeroed :
    SlidingWindowCounter.tryConsume (fun d => d / 10) (fun d p => p * (10 - d % 10) / 10)
        (SlidingWindowCounter.new 1000 10 0) 30000000 1 =
      some (.ok, ⟨1000, 0, 1, 0, 10, 0⟩) ∧
    (fun d => d / 10) ((SlidingWindowCounter.new 1000 10 0).deltaMs 30000000) =
      (SlidingWindowCounter.new 1000 10 0).window_index + 3 := by
  constructor
  · decide
  · decide

/-- C2 (counterexample): the underflow branch of the unchecked
`capacity - sum(slots)` subtraction in `SlidingWindowLog::try_consume` IS
reachable: with capacity 10 and `W = 2`, a first call at 2 ms takes the
reset branch and grants 100 tokens into slot 0 with no capacity check; the
next call at 3 ms shifts the buffer to `[0, 100]` and then evaluates
`10 - 100`, which panics (modelled as `none`). -/
theorem c2_counterexample_underflow_reachable :
    SlidingWindowLog.tryConsume (SlidingWindowLog.new 10 2 0) 2000000 100 =
      some (.ok, ⟨10, [100, 0], 2000000⟩) ∧
    SlidingWindowLog.tryConsume ⟨10, [100, 0], 2000000⟩ 3000000 1 = none := by
  constructor
  · decide
  · decide

/-- C2 (amended): in `SlidingWindowLog::try_consume` no add/sub can panic
from a state with `sum(slots) ≤ capacity` and `W ≥ 1` (capacity within
`u64`), and in `SlidingWindowCounter::try_consume` the unchecked guard
addition `effective_prev + tokens_this + n` stays within `u64` whenever both
counters are at most `capacity`, the `f64` `effective_prev` is at most
`tokens_prev`, and `capacity + capacity + n` fits in `u64`.  (TokenBucket
and FixedWindow contain only saturating or guarded add/sub, so their models
have no panic point for the claim to exclude.) -/
theorem c2_no_overflow_underflow :
    (∀ (s : SlidingWindowLog) (now n : Nat),
      1 ≤ s.W → s.window_buffer.sum ≤ s.capacity → s.capacity ≤ U64_MAX →
      s.tryConsume now n ≠ none) ∧
    (∀ (idxOf : Nat → Nat) (effOf : Nat → Nat → Nat) (s : SlidingWindowCounter) (now n : Nat),
      (∀ d p, effOf d p ≤ p) →
      s.tokens_prev ≤ s.capacity → s.tokens_this ≤ s.capacity →
      s.capacity + s.capacity + n ≤ U64_MAX →
      SlidingWindowCounter.tryConsume idxOf effOf s now n ≠ none) := by
  constructor
  · intro s now n hW hsum hcap
    unfold SlidingWindowLog.tryConsume
    dsimp only
    split
    · rcases hbuf : s.window_buffer with _ | ⟨x, xs⟩
      · exact absurd hW (by simp [SlidingWindowLog.W, hbuf])
      · simp
    · rename_i hlt
      have hlen : (s.age now).window_buffer.length = s.window_buffer.length :=
        slidingWindowLog_age_length s now (by omega)
      rcases hbuf2 : (s.age now).window_buffer with _ | ⟨h0, rest⟩
      · rw [hbuf2] at hlen
        simp only [List.length_nil] at hlen
        have hWdef : s.W = s.window_buffer.length := rfl
        omega
      · have hused : h0 + rest.sum ≤ s.capacity := by
          have h1 := slidingWindowLog_age_sum_le s now
          rw [hbuf2, List.sum_cons] at h1
          omega
        dsimp only
        rw [if_neg (by omega)]
        split
        · simp
        · rw [if_neg (by omega)]
          simp
  · intro idxOf effOf s now n heff hp ht hcap
    obtain ⟨hrp, hrt, hrc⟩ := slidingWindowCounter_roll_bounds s (idxOf (s.deltaMs now)) hp ht
    have he := heff (s.deltaMs now) (s.roll (idxOf (s.deltaMs now))).tokens_prev
    unfold SlidingWindowCounter.tryConsume
    dsimp only
    rw [if_neg (by omega)]
    split <;> simp

/-- C2 (witness): concrete non-panicking instances of both conjuncts. -/
theorem c2_no_overflow_underflow_witness :
    SlidingWindowLog.tryConsume ⟨10, [3, 0], 0⟩ 0 2 ≠ none ∧
    SlidingWindowCounter.tryConsume (fun d => d / 10) (fun _ p => p)
      ⟨1000, 5, 5, 0, 10, 0⟩ 0 7 ≠ none := by
  constructor
  · exact c2_no_overflow_underflow.1 ⟨10, [3, 0], 0⟩ 0 2 (by decide) (by decide) (by decide)
  · exact c2_no_overflow_underflow.2 (fun d => d / 10) (fun _ p => p) ⟨1000, 5, 5, 0, 10, 0⟩ 0 7
      (fun _ p => le_refl p) (by decide) (by decide) (by decide)

/-- C3 (counterexample): the sliding-window-log slot sum CAN exceed
`capacity` on a state reached by construction plus one `try_consume` call
under a monotone clock (constructed at t = 0, called at t = 2 ms): the
unguarded reset branch grants a 100-token request against capacity 10,
leaving `sum(slots) = 100 > 10`. -/
theorem c3_counterexample_log_sum_exceeds_capacity :
    SlidingWindowLog.Reachable ⟨10, [100, 0], 2000000⟩ ∧
    10 < ([100, 0] : List Nat).sum := by
  constructor
  · have h1 : SlidingWindowLog.Reachable (SlidingWindowLog.new 10 2 0) :=
      SlidingWindowLog.Reachable.init 10 2 0
    have h2 : (SlidingWindowLog.new 10 2 0).tryConsume 2000000 100 =
        some (LimiterResult.ok, ⟨10, [100, 0], 2000000⟩) := by decide
    exact SlidingWindowLog.Reachable.step 2000000 100 h1 h2
  · decide

/-- C3 (amended): on every reachable state the TokenBucket balance, the
FixedWindow balance and both SlidingWindowCounter counters are at most
`capacity` (non-negativity is inherent to the unsigned values); the
SlidingWindowLog slot sum is at most `capacity` on every state reachable by
calls that each request at most `capacity` — an oversized reset-branch
request can push the sum above `capacity`. -/
theorem c3_balances_in_range :
    (∀ s, TokenBucket.Reachable s → s.tokens ≤ s.capacity) ∧
    (∀ s, FixedWindow.Reachable s → s.tokens ≤ s.capacity) ∧
    (∀ s, SlidingWindowCounter.Reachable s →
      s.tokens_prev ≤ s.capacity ∧ s.tokens_this ≤ s.capacity) ∧
    (∀ s, SlidingWindowLog.ReachableB s → s.window_buffer.sum ≤ s.capacity) :=
  ⟨fun _ h => tokenBucket_inv h, fun _ h => fixedWindow_inv h,
   fun _ h => slidingWindowCounter_inv h, fun _ h => slidingWindowLog_inv h⟩

/-- C3 (witness): the bounds at freshly constructed limiters. -/
theorem c3_balances_in_range_witness :
    (TokenBucket.new 7 0).tokens ≤ (TokenBucket.new 7 0).capacity ∧
    (FixedWindow.new 7 1 0).tokens ≤ (FixedWindow.new 7 1 0).capacity ∧
    ((SlidingWindowCounter.new 7 10 0).tokens_prev ≤ (SlidingWindowCounter.new 7 10 0).capacity ∧
      (SlidingWindowCounter.new 7 10 0).tokens_this ≤ (SlidingWindowCounter.new 7 10 0).capacity) ∧
    (SlidingWindowLog.new 7 3 0).window_buffer.sum ≤ (SlidingWindowLog.new 7 3 0).capacity :=
  ⟨c3_balances_in_range.1 _ (TokenBucket.Reachable.init 7 0),
   c3_balances_in_range.2.1 _ (FixedWindow.Reachable.init 7 1 0),
   c3_balances_in_range.2.2.1 _ (SlidingWindowCounter.Reachable.init 7 10 0),
   c3_balances_in_range.2.2.2 _ (SlidingWindowLog.ReachableB.init 7 3 0)⟩

/-- C4: for `SlidingWindowLog` (window width `W ≥ 1` so that slot 0 exists),
whenever the computed saturating elapsed time is at least `W`,
`try_consume(n)` returns `Ok`, zeroes every slot except slot 0 which is set
to `n`, and sets `last_update_time = now` — with no check of `n` against
`capacity`, so the grant happens even when `n > capacity`. -/
theorem c4_log_reset_grants_unconditionally (s : SlidingWindowLog) (now n : Nat)
    (hW : 1 ≤ s.W) (hd : s.W ≤ s.deltaT now) :
    s.tryConsume now n =
      some (.ok, ⟨s.capacity, n :: List.replicate (s.W - 1) 0, now⟩) :=
  slidingWindowLog_reset_eq s now n hW hd

/-- C4 (witness): a reset-branch grant of 999 tokens against capacity 10. -/
theorem c4_log_reset_grants_unconditionally_witness :
    SlidingWindowLog.tryConsume ⟨10, [1, 2, 3], 0⟩ 5000000 999 =
      some (.ok, ⟨10, [999, 0, 0], 5000000⟩) := by
  have h := c4_log_reset_grants_unconditionally ⟨10, [1, 2, 3], 0⟩ 5000000 999
    (by decide) (by decide)
  exact h

/-- C5: on every `TokenBucket::try_consume(n)` call with `to_add` the
(oracle-supplied) value of `floor(elapsed seconds x rate_per_s)`: when
`to_add = 0` the whole refill step is skipped (in particular
`last_update_t` is unchanged, preserving sub-granularity time); when
`to_add > 0` the timestamp advances to `now` and the balance becomes
`min(capacity, tokens + to_add)`; the call then grants and subtracts `n`
exactly when the refilled balance is at least `n`, and otherwise refuses
with the refilled balance unchanged. -/
theorem c5_token_bucket_step (rateMul : Nat → Nat) (s : TokenBucket) (now n : Nat)
    (hcap : s.capacity ≤ U64_MAX) :
    (rateMul (now - s.last_update_t) = 0 → s.refill rateMul now = s) ∧
    (0 < rateMul (now - s.last_update_t) →
      (s.refill rateMul now).last_update_t = now ∧
      (s.refill rateMul now).tokens =
        min s.capacity (s.tokens + rateMul (now - s.last_update_t))) ∧
    ((TokenBucket.tryConsume rateMul s now n).1 = .ok ↔ n ≤ (s.refill rateMul now).tokens) ∧
    ((TokenBucket.tryConsume rateMul s now n).1 = .ok →
      (TokenBucket.tryConsume rateMul s now n).2 =
        ⟨s.capacity, (s.refill rateMul now).tokens - n, (s.refill rateMul now).last_update_t⟩) ∧
    ((TokenBucket.tryConsume rateMul s now n).1 = .cantConsume →
      (TokenBucket.tryConsume rateMul s now n).2 = s.refill rateMul now) := by
  have hc := tokenBucket_refill_capacity rateMul s now
  refine ⟨?_, ?_, ?_, ?_, ?_⟩
  · intro h0
    unfold TokenBucket.refill
    dsimp only
    rw [if_neg (by simp [h0])]
  · intro h0
    unfold TokenBucket.refill
    dsimp only
    rw [if_pos (by omega)]
    refine ⟨rfl, ?_⟩
    dsimp only
    unfold satAddU64 U64_MAX
    unfold U64_MAX at hcap
    omega
  · unfold TokenBucket.tryConsume
    dsimp only
    split
    · rename_i hle
      simpa using hle
    · rename_i hle
      simp only [show ((LimiterResult.cantConsume, s.refill rateMul now)).1 = .cantConsume
        from rfl]
      constructor
      · intro h
        exact absurd h (by simp)
      · intro h
        exact absurd h hle
  · unfold TokenBucket.tryConsume
    dsimp only
    split
    · intro h
      dsimp only
      rw [hc]
    · intro h
      exact absurd h (by simp)
  · unfold TokenBucket.tryConsume
    dsimp only
    split
    · intro h
      exact absurd h (by simp)
    · intro h
      rfl

/-- C5 (witness): with an exact rate oracle for 1 token per second, a grant
two seconds after construction exercises the positive-refill path. -/
theorem c5_token_bucket_step_witness :
    (5 : Nat) ≤ U64_MAX ∧
    (TokenBucket.tryConsume (fun d => d / 1000000000) ⟨5, 3, 0⟩ 2000000000 4).1 = .ok :=
  ⟨by decide,
   (c5_token_bucket_step (fun d => d / 1000000000) ⟨5, 3, 0⟩ 2000000000 4
      (by decide)).2.2.1.mpr (by decide)⟩

/-- C6: for every limiter variant, whenever `try_consume` returns
`Err(CantConsume)` the resulting state is exactly the state after that call's
mandatory time bookkeeping — token-bucket refill, fixed-window replenish,
sliding-log shift/aging, sliding-counter window roll — with no tokens
deducted: consumption is all-or-nothing. -/
theorem c6_refusal_only_bookkeeping :
    (∀ (rateMul : Nat → Nat) (s : TokenBucket) (now n : Nat),
      (TokenBucket.tryConsume rateMul s now n).1 = .cantConsume →
      (TokenBucket.tryConsume rateMul s now n).2 = s.refill rateMul now) ∧
    (∀ (s t : FixedWindow) (now n : Nat),
      s.tryConsume now n = some (.cantConsume, t) → t = s.refresh now) ∧
    (∀ (s t : SlidingWindowLog) (now n : Nat),
      s.tryConsume now n = some (.cantConsume, t) → t = s.age now) ∧
    (∀ (idxOf : Nat → Nat) (effOf : Nat → Nat → Nat) (s t : SlidingWindowCounter) (now n : Nat),
      SlidingWindowCounter.tryConsume idxOf effOf s now n = some (.cantConsume, t) →
      t = s.roll (idxOf (s.deltaMs now))) := by
  refine ⟨?_, ?_, ?_, ?_⟩
  · intro rateMul s now n h
    unfold TokenBucket.tryConsume at h ⊢
    dsimp only at h ⊢
    by_cases hc : n ≤ (s.refill rateMul now).tokens
    · rw [if_pos hc] at h
      exact absurd h (by simp)
    · rw [if_neg hc]
  · intro s t now n h
    unfold FixedWindow.tryConsume at h
    split at h
    · exact absurd h (by simp)
    · dsimp only at h
      split at h
      · simp at h
      · simp only [Option.some.injEq, Prod.mk.injEq] at h
        exact h.2.symm
  · intro s t now n h
    unfold SlidingWindowLog.tryConsume at h
    dsimp only at h
    split at h
    · split at h
      · exact absurd h (by simp)
      · simp at h
    · split at h
      · exact absurd h (by simp)
      · split at h
        · exact absurd h (by simp)
        · split at h
          · simp only [Option.some.injEq, Prod.mk.injEq] at h
            exact h.2.symm
          · split at h
            · exact absurd h (by simp)
            · simp at h
  · intro idxOf effOf s t now n h
    unfold SlidingWindowCounter.tryConsume at h
    dsimp only at h
    split at h
    · exact absurd h (by simp)
    · split at h
      · simp only [Option.some.injEq, Prod.mk.injEq] at h
        exact h.2.symm
      · simp at h

/-- C6 (witness): a concrete refusal of each variant, with the refused state
equal to the bookkeeping-only state. -/
theorem c6_refusal_only_bookkeeping_witness :
    (TokenBucket.tryConsume (fun d => d) ⟨5, 0, 0⟩ 0 1).2 =
      TokenBucket.refill (fun d => d) ⟨5, 0, 0⟩ 0 ∧
    (FixedWindow.new 5 1 0 : FixedWindow) = FixedWindow.refresh (FixedWindow.new 5 1 0) 0 ∧
    (⟨1, [1], 0⟩ : SlidingWindowLog) = SlidingWindowLog.age ⟨1, [1], 0⟩ 0 ∧
    (⟨1, 0, 1, 0, 10, 0⟩ : SlidingWindowCounter) =
      SlidingWindowCounter.roll ⟨1, 0, 1, 0, 10, 0⟩
        ((fun d => d / 10) (SlidingWindowCounter.deltaMs ⟨1, 0, 1, 0, 10, 0⟩ 0)) :=
  ⟨c6_refusal_only_bookkeeping.1 (fun d => d) ⟨5, 0, 0⟩ 0 1 (by decide),
   c6_refusal_only_bookkeeping.2.1 (FixedWindow.new 5 1 0) (FixedWindow.new 5 1 0) 0 6 (by decide),
   c6_refusal_only_bookkeeping.2.2.1 ⟨1, [1], 0⟩ ⟨1, [1], 0⟩ 0 1 (by decide),
   c6_refusal_only_bookkeeping.2.2.2 (fun d => d / 10) (fun _ p => p)
     ⟨1, 0, 1, 0, 10, 0⟩ ⟨1, 0, 1, 0, 10, 0⟩ 0 1 (by decide)⟩

/-- C7: a clock reading earlier than the stored last-observed timestamp
saturates the elapsed time to zero, so the call computes exactly what a call
at the stored timestamp (zero elapsed time) computes — same result, same
resulting state, no corruption.  For the token bucket this uses the fact
that the `f64` product of a zero duration with the rate truncates to zero
(`rateMul 0 = 0`). -/
theorem c7_backwards_clock_zero_elapsed :
    (∀ (rateMul : Nat → Nat) (s : TokenBucket) (now n : Nat), rateMul 0 = 0 →
      now ≤ s.last_update_t →
      TokenBucket.tryConsume rateMul s now n =
        TokenBucket.tryConsume rateMul s s.last_update_t n) ∧
    (∀ (s : FixedWindow) (now n : Nat), now ≤ s.start_time →
      s.tryConsume now n = s.tryConsume s.start_time n) ∧
    (∀ (s : SlidingWindowLog) (now n : Nat), now ≤ s.last_update_time →
      s.tryConsume now n = s.tryConsume s.last_update_time n) ∧
    (∀ (idxOf : Nat → Nat) (effOf : Nat → Nat → Nat) (s : SlidingWindowCounter) (now n : Nat),
      now ≤ s.start_time →
      SlidingWindowCounter.tryConsume idxOf effOf s now n =
        SlidingWindowCounter.tryConsume idxOf effOf s s.start_time n) := by
  refine ⟨?_, ?_, ?_, ?_⟩
  · intro rateMul s now n h0 hle
    unfold TokenBucket.tryConsume TokenBucket.refill
    dsimp only
    rw [Nat.sub_eq_zero_of_le hle, Nat.sub_self, h0]
    simp
  · intro s now n hle
    unfold FixedWindow.tryConsume FixedWindow.refresh
    dsimp only
    rw [Nat.sub_eq_zero_of_le hle, Nat.sub_self]
  · intro s now n hle
    obtain ⟨cap, buf, last⟩ := s
    dsimp only at hle
    unfold SlidingWindowLog.tryConsume SlidingWindowLog.age SlidingWindowLog.deltaT
      SlidingWindowLog.W
    dsimp only
    rw [Nat.sub_eq_zero_of_le hle, Nat.sub_self]
    have hz : u64cast (asMillis 0) = 0 := by decide
    rw [hz]
    rcases buf with _ | ⟨x, xs⟩ <;> simp
  · intro idxOf effOf s now n hle
    unfold SlidingWindowCounter.tryConsume SlidingWindowCounter.deltaMs
    dsimp only
    rw [Nat.sub_eq_zero_of_le hle, Nat.sub_self]

/-- C7 (witness): concrete backwards-clock calls on each variant agreeing
with their zero-elapsed counterparts. -/
theorem c7_backwards_clock_zero_elapsed_witness :
    TokenBucket.tryConsume (fun d => d) ⟨5, 3, 7⟩ 2 1 =
      TokenBucket.tryConsume (fun d => d) ⟨5, 3, 7⟩ 7 1 ∧
    FixedWindow.tryConsume ⟨5, 1, 5, 0, 9000000⟩ 2 1 =
      FixedWindow.tryConsume ⟨5, 1, 5, 0, 9000000⟩ 9000000 1 ∧
    SlidingWindowLog.tryConsume ⟨5, [1, 0], 9000000⟩ 2 1 =
      SlidingWindowLog.tryConsume ⟨5, [1, 0], 9000000⟩ 9000000 1 ∧
    SlidingWindowCounter.tryConsume (fun d => d / 10) (fun _ p => p) ⟨5, 1, 1, 0, 10, 9000000⟩ 2 1 =
      SlidingWindowCounter.tryConsume (fun d => d / 10) (fun _ p => p)
        ⟨5, 1, 1, 0, 10, 9000000⟩ 9000000 1 :=
  ⟨c7_backwards_clock_zero_elapsed.1 (fun d => d) ⟨5, 3, 7⟩ 2 1 rfl (by decide),
   c7_backwards_clock_zero_elapsed.2.1 ⟨5, 1, 5, 0, 9000000⟩ 2 1 (by decide),
   c7_backwards_clock_zero_elapsed.2.2.1 ⟨5, [1, 0], 9000000⟩ 2 1 (by decide),
   c7_backwards_clock_zero_elapsed.2.2.2 (fun d => d / 10) (fun _ p => p)
     ⟨5, 1, 1, 0, 10, 9000000⟩ 2 1 (by decide)⟩

/-- C8: the fixed-window literal scenario.  Capacity 1000, window width 1 ms,
clock starting at 0 and advancing 100 microseconds per read with the
construction read observing 0: consume(500) and consume(500) are granted in
window 0, the next seven single-token calls (T = 300 us .. 900 us) are
refused, the call at T = 1000 us lands in window 1 and is granted after full
replenishment, consume(998) is granted, and consume(2) is refused. -/
theorem c8_fixed_window_literal_scenario :
    FixedWindow.run (FixedWindow.new 1000 1 0)
      [(100000, 500), (200000, 500), (300000, 1), (400000, 1), (500000, 1), (600000, 1),
        (700000, 1), (800000, 1), (900000, 1), (1000000, 1), (1100000, 998), (1200000, 2)] =
      [.ok, .ok, .cantConsume, .cantConsume, .cantConsume, .cantConsume, .cantConsume,
        .cantConsume, .cantConsume, .ok, .ok, .cantConsume] := by
  decide

/-- C9 (counterexample): a `FixedWindow` constructed with window width 0 is
reachable (nothing rejects the width), and a call requesting more than
capacity then panics on the division `delta_ms / width_ms` instead of
returning `Err(CantConsume)`. -/
theorem c9_counterexample_zero_width_panics :
    FixedWindow.Reachable (FixedWindow.new 5 0 0) ∧
    FixedWindow.tryConsume (FixedWindow.new 5 0 0) 0 6 = none :=
  ⟨FixedWindow.Reachable.init 5 0 0, by decide⟩

/-- C9 (amended): on every reachable state, a request `n > capacity` is
always refused by `TokenBucket`, and by `FixedWindow` provided its window
width is nonzero (with width 0 every call panics on division by zero instead
of returning); the refusing fixed-window call performs only the replenish
bookkeeping. -/
theorem c9_oversized_requests_refused :
    (∀ (rateMul : Nat → Nat) (s : TokenBucket) (now n : Nat),
      TokenBucket.Reachable s → s.capacity < n →
      (TokenBucket.tryConsume rateMul s now n).1 = .cantConsume) ∧
    (∀ (s : FixedWindow) (now n : Nat),
      FixedWindow.Reachable s → 1 ≤ s.width_ms → s.capacity < n →
      s.tryConsume now n = some (.cantConsume, s.refresh now)) := by
  constructor
  · intro rateMul s now n hr hn
    have hi := tokenBucket_inv hr
    have h1 := tokenBucket_refill_tokens_le rateMul s now hi
    unfold TokenBucket.tryConsume
    dsimp only
    rw [if_neg (by omega)]
  · intro s now n hr hw hn
    have hi := fixedWindow_inv hr
    have h1 := fixedWindow_refresh_tokens_le s now hi
    unfold FixedWindow.tryConsume
    rw [if_neg (by omega)]
    dsimp only
    rw [if_neg (by omega)]

/-- C9 (witness): oversized requests against freshly built limiters of
capacity 5. -/
theorem c9_oversized_requests_refused_witness :
    (TokenBucket.tryConsume (fun d => d) (TokenBucket.new 5 0) 3 6).1 = .cantConsume ∧
    FixedWindow.tryConsume (FixedWindow.new 5 1 0) 0 6 =
      some (.cantConsume, FixedWindow.refresh (FixedWindow.new 5 1 0) 0) :=
  ⟨c9_oversized_requests_refused.1 (fun d => d) (TokenBucket.new 5 0) 3 6
     (TokenBucket.Reachable.init 5 0) (by decide),
   c9_oversized_requests_refused.2 (FixedWindow.new 5 1 0) 0 6
     (FixedWindow.Reachable.init 5 1 0) (by decide) (by decide)⟩

/-- C10: a `SlidingWindowLog` instantiated with `W = 0` (which no
constructor rejects) satisfies the reset condition `delta_t >= W` on every
call and then writes `window_buffer[0]` on a zero-length buffer — an
out-of-bounds panic, so every call panics; with `W >= 1` the reset-branch
write is in bounds and that branch always returns `Ok`. -/
theorem c10_zero_window_width_out_of_bounds :
    (∀ (capacity t0 now n : Nat),
      SlidingWindowLog.tryConsume (SlidingWindowLog.new capacity 0 t0) now n = none) ∧
    (∀ (s : SlidingWindowLog) (now n : Nat), 1 ≤ s.W → s.W ≤ s.deltaT now →
      ∃ t, s.tryConsume now n = some (.ok, t)) := by
  constructor
  · intro capacity t0 now n
    have h : (SlidingWindowLog.new capacity 0 t0).W ≤
        (SlidingWindowLog.new capacity 0 t0).deltaT now := Nat.zero_le _
    unfold SlidingWindowLog.tryConsume
    dsimp only
    rw [if_pos h]
    rfl
  · intro s now n hW hd
    exact ⟨_, slidingWindowLog_reset_eq s now n hW hd⟩

/-- C10 (witness): every call on a width-0 log panics; a width-2 log with a
full window elapsed takes the in-bounds reset branch. -/
theorem c10_zero_window_width_out_of_bounds_witness :
    SlidingWindowLog.tryConsume (SlidingWindowLog.new 7 0 0) 123 4 = none ∧
    ∃ t, SlidingWindowLog.tryConsume ⟨7, [0, 0], 0⟩ 2000000 4 = some (.ok, t) :=
  ⟨c10_zero_window_width_out_of_bounds.1 7 0 123 4,
   c10_zero_window_width_out_of_bounds.2 ⟨7, [0, 0], 0⟩ 2000000 4 (by decide) (by decide)⟩
